import Mathlib

/-!
Verification of the mui-format widget toolkit against its specification.

The development shallowly embeds the value-aggregation, type-dispatch,
option-source and controller logic of the repository (src/Parent.js,
src/Node.js, src/Array.js, src/Form.js, src/Shared.js and the Results
component) and proves or refutes the documented properties.

JS values are modelled by the inductive type Val below.  Strict equality
(the JS === operator) is reference equality on composite values; a
composite value therefore carries an identity tag, and jsEq compares
composites by tag only.  The absent-property value undefined is a first
class member, since property reads of missing keys produce it.
-/

/-- A JS value as this library sees it.  Composite values (arrays and
objects) carry a numeric identity tag modelling reference identity. -/
inductive Val where
  | undefined : Val
  | null : Val
  | bool : Bool → Val
  | num : Int → Val
  | str : String → Val
  | arr : Nat → List Val → Val
  | obj : Nat → List (String × Val) → Val
deriving Repr

/-- JS strict equality (===): structural on primitives, reference
identity (the tag) on arrays and objects. -/
def jsEq : Val → Val → Bool
  | .undefined, .undefined => true
  | .null, .null => true
  | .bool a, .bool b => a == b
  | .num a, .num b => a == b
  | .str a, .str b => a == b
  | .arr i _, .arr j _ => i == j
  | .obj i _, .obj j _ => i == j
  | _, _ => false

/-- Modelled from the contract of the external helper empty of the
ouroboros tools package (not part of this repository): a value is empty
when it is undefined, null, the empty string, an empty array or an
object without keys.  Numbers and booleans are never empty. -/
def jsEmpty : Val → Bool
  | .undefined => true
  | .null => true
  | .bool _ => false
  | .num _ => false
  | .str s => s == ""
  | .arr _ es => es.isEmpty
  | .obj _ kvs => kvs.isEmpty

/-- JS truthiness test (used by the || operator): undefined, null,
false, 0 and the empty string are falsy. -/
def jsFalsy : Val → Bool
  | .undefined => true
  | .null => true
  | .bool b => !b
  | .num n => n == 0
  | .str s => s == ""
  | .arr _ _ => false
  | .obj _ _ => false

/-- JS property read on an object literal: the first binding of the key,
or undefined when the key is absent. -/
def jsLookup (entries : List (String × Val)) (k : String) : Val :=
  match entries.lookup k with
  | some v => v
  | none => .undefined

/-- Whether an Except computation succeeded. -/
def isOkE {α : Type} (e : Except String α) : Bool :=
  match e with
  | .ok _ => true
  | .error _ => false

/-! ## Scalar widgets (src/Node.js) -/

/-- NodeBase value getter (src/Node.js lines 324-326): the stored input
value, except that the empty string reads back as null. -/
def NodeBase.valueGet (stored : Val) : Val :=
  if jsEq stored (.str "") then .null else stored

/-- NodeTextArea value getter (src/Node.js lines 1392-1394): identical
to the NodeBase getter, restated because NodeTextArea does not extend
NodeBase. -/
def NodeTextArea.valueGet (stored : Val) : Val :=
  if jsEq stored (.str "") then .null else stored

/-- Node.defaultType (src/Node.js lines 80-123): resolve a schema
primitive type to a widget kind.  A node with enumerated options is
always a select; otherwise the fixed switch applies, and an unknown
primitive throws. -/
def Node.defaultType (hasOptions : Bool) (sType : String) : Except String String :=
  if hasOptions then .ok "select"
  else if sType = "any" ∨ sType = "base64" ∨ sType = "ip" ∨ sType = "json" ∨
          sType = "md5" ∨ sType = "string" ∨ sType = "uuid" ∨ sType = "uuid4" then
    .ok "text"
  else if sType = "decimal" ∨ sType = "float" ∨ sType = "int" ∨
          sType = "timestamp" ∨ sType = "uint" then
    .ok "number"
  else if sType = "bool" ∨ sType = "date" ∨ sType = "datetime" ∨
          sType = "price" ∨ sType = "time" then
    .ok sType
  else
    .error ("invalid type in format/Node: " ++ sType)

/-- The keys of the static widget registry Node._registered, in the
order of the Node.register calls at the bottom of src/Node.js.  Note
line 474: the date widget NodeDate is registered under the key "data". -/
def Node.registered : List String :=
  ["bool", "data", "datetime", "hidden", "multiselectcsv", "number",
   "password", "phone_number", "price", "select", "text", "textarea", "time"]

/-- Node.render type lookup (src/Node.js lines 153-161): rendering uses
the registry entry for the resolved widget kind and throws when the kind
is not registered. -/
def Node.renderResolve (ty : String) : Except String String :=
  if Node.registered.contains ty then .ok ty
  else .error ("invalid type in format/Node: " ++ ty)

/-! ## Group widget value aggregation (src/Parent.js) -/

/-- Parent value getter (src/Parent.js lines 270-302).  fields maps each
child name to the resolved value of the child (its value getter result);
propsValue is the value object supplied at construction.  In update mode
without the returnAll flag a key is kept when its value differs (!==)
from the original; in every other mode a key is kept when its value is
not empty. -/
def Parent.valueGet (ty : String) (returnAll : Bool)
    (propsValue fields : List (String × Val)) : List (String × Val) :=
  fields.filter fun kv =>
    if ty == "update" && !returnAll then
      !jsEq (jsLookup propsValue kv.1) kv.2
    else
      !jsEmpty kv.2

/-- Replace the stored value of an existing child; an absent key changes
nothing (the setter never creates a member, it throws first, see
Parent.valueSet). -/
def assocSet : List (String × Val) → String → Val → List (String × Val)
  | [], _, _ => []
  | (k, v) :: rest, key, newV =>
    if k = key then (k, newV) :: rest else (k, v) :: assocSet rest key newV

/-- Parent value setter (src/Parent.js lines 304-308): for every key of
the assigned object, this.fields[k].value = val[k].  When k names no
current child, this.fields[k] is undefined and the property write throws
a TypeError; otherwise the child stores the assigned value. -/
def Parent.valueSet : List (String × Val) → List (String × Val) →
    Except String (List (String × Val))
  | fields, [] => .ok fields
  | fields, (k, v) :: rest =>
    if (fields.lookup k).isSome then Parent.valueSet (assocSet fields k v) rest
    else .error ("TypeError: cannot set value of undefined (no child " ++ k ++ ")")

/-- The stored values of all children after the whole assignment. -/
def applyAssoc (fields : List (String × Val)) (v : List (String × Val)) :
    List (String × Val) :=
  v.foldl (fun fs kv => assocSet fs kv.1 kv.2) fields

/-- The resolved view of the children: each stored value through the
NodeBase value getter (the empty string reads as null). -/
def resolveFields (fields : List (String × Val)) : List (String × Val) :=
  fields.map fun kv => (kv.1, NodeBase.valueGet kv.2)

/-- Assign then read: Parent.valueSet followed by Parent.valueGet over
the resolved children. -/
def Parent.readAfterSet (ty : String) (ra : Bool)
    (propsValue fields v : List (String × Val)) :
    Except String (List (String × Val)) :=
  match Parent.valueSet fields v with
  | .error e => .error e
  | .ok fs => .ok (Parent.valueGet ty ra propsValue (resolveFields fs))


/-! ## List field widget (src/Array.js) -/

/-- One element of the list field: the element value and its synthetic
key (uuidv4 in the source, modelled by a counter that yields fresh
keys). -/
structure ArrayElem where
  value : Val
  key : Nat
deriving Repr

/-- The ArrayNode component state: the element list plus the counter
backing fresh synthetic keys. -/
structure ArrayState where
  elements : List ArrayElem
  nextKey : Nat
deriving Repr

/-- Modelled from the contract of the external helper afindi of the
ouroboros tools package: index of the first element whose key property
equals the argument, or -1. -/
def afindiAux : List ArrayElem → Nat → Nat → Int
  | [], _, _ => -1
  | e :: rest, key, i =>
    if e.key = key then Int.ofNat i else afindiAux rest key (i + 1)

def afindi (l : List ArrayElem) (key : Nat) : Int := afindiAux l key 0

/-- ArrayNode construction (src/Array.js lines 52-62): one element per
entry of the value prop, each with a fresh synthetic key. -/
def ArrayNode.construct (value : List Val) : ArrayState :=
  { elements := value.enum.map fun p => { value := p.2, key := p.1 },
    nextKey := value.length }

/-- ArrayNode.add (src/Array.js lines 66-79): append an element with a
null value and a fresh synthetic key. -/
def ArrayNode.add (st : ArrayState) : ArrayState :=
  { elements := st.elements ++ [{ value := Val.null, key := st.nextKey }],
    nextKey := st.nextKey + 1 }

/-- ArrayNode.remove (src/Array.js lines 85-103): find the index of the
synthetic key; when found, a clone of the element list is spliced, but
the next statement calls splice on this.nodes, which is a plain object
(set to an object literal in the constructor and in render), so a
TypeError is thrown before setState and the element list is never
updated; when the key is not found nothing happens. -/
def ArrayNode.remove (st : ArrayState) (key : Nat) : Except String ArrayState :=
  if afindi st.elements key > -1 then
    .error "TypeError: this.nodes.splice is not a function"
  else .ok st

/-! ## Form controller (src/Form.js) -/

/-- The externally visible actions a submit attempt performs, in order:
global event-bus triggers, error distribution onto the group widget,
the caller supplied override submit, and the backend create and update
calls. -/
inductive FormEffect where
  | eventError (msg : String)
  | parentError (failures : List (String × String))
  | overrideSubmit (body : List (String × Val))
  | restCreate (service noun : String) (body : List (String × Val))
  | restUpdate (service noun : String) (body : List (String × Val))
deriving Repr

def FormEffect.isBackendCall : FormEffect → Bool
  | .restCreate _ _ _ => true
  | .restUpdate _ _ _ => true
  | _ => false

/-- JS property write oValues[primary] = key: replace the binding or
append a new one. -/
def assocUpsertVal : List (String × Val) → String → Val → List (String × Val)
  | [], k, v => [(k, v)]
  | (k0, v0) :: rest, k, v =>
    if k0 = k then (k0, v) :: rest else (k0, v0) :: assocUpsertVal rest k v

/-- Form.create (src/Form.js lines 63-117) up to issuing the request.
validResult is the result of the group widget valid() call and failures
the validation_failures side channel it leaves on the tree; the
recorded parentError carries the argument handed to the external
Rest.toTree before distribution.  beforeSubmit models the optional
transform, none standing for a false return (veto). -/
def Form.createRun (service noun : String) (validResult : Bool)
    (failures : List (String × String)) (parentVal : List (String × Val))
    (beforeSubmit : Option (List (String × Val) → Option (List (String × Val))))
    (hasOverride : Bool) : List FormEffect :=
  if !validResult then
    [.eventError "Please fix invalid data", .parentError failures]
  else
    match beforeSubmit with
    | some f =>
      match f parentVal with
      | none => []
      | some v2 =>
        if hasOverride then [.overrideSubmit v2]
        else [.restCreate service noun v2]
    | none =>
      if hasOverride then [.overrideSubmit parentVal]
      else [.restCreate service noun parentVal]

/-- Form.update (src/Form.js lines 198-257) up to issuing the request;
same shape as Form.createRun, with the primary key added to the values
first when the sendPrimary prop is set. -/
def Form.updateRun (service noun : String) (validResult : Bool)
    (failures : List (String × String)) (parentVal : List (String × Val))
    (sendPrimary : Bool) (primary : String) (key : Val)
    (beforeSubmit : Option (List (String × Val) → Option (List (String × Val))))
    (hasOverride : Bool) : List FormEffect :=
  if !validResult then
    [.eventError "Please fix invalid data", .parentError failures]
  else
    let v1 := if sendPrimary then assocUpsertVal parentVal primary key else parentVal
    match beforeSubmit with
    | some f =>
      match f v1 with
      | none => []
      | some v2 =>
        if hasOverride then [.overrideSubmit v2]
        else [.restUpdate service noun v2]
    | none =>
      if hasOverride then [.overrideSubmit v1]
      else [.restUpdate service noun v1]


/-! ## Remote option source (src/Shared.js SelectRest) -/

/-- The observable state of a SelectRest instance: the registered
callbacks (identified by number, in registration order), the fetched
flag and the number of backend fetches issued so far. -/
structure SelectRestState where
  callbacks : List Nat
  fetched : Bool
  fetches : Nat
deriving Repr, DecidableEq

/-- A SelectRest instance starts with no callbacks, the fetched flag
down and no fetch issued (src/Shared.js lines 344-357). -/
def SelectRest.init : SelectRestState :=
  { callbacks := [], fetched := false, fetches := 0 }

/-- A call of the track method: register a callback, or remove one
(the remove argument set). -/
inductive TrackOp where
  | track (cb : Nat)
  | untrack (cb : Nat)
deriving Repr, DecidableEq

def TrackOp.isTrack : TrackOp → Bool
  | .track _ => true
  | .untrack _ => false

/-- One SelectRest.track call (src/Shared.js lines 369-386 together
with SelectBase.track, lines 129-149).  Tracking pushes the callback
and, when the fetched flag is down, raises the flag and issues the one
fetch; the flag goes up before the request starts, so a second track
before the response arrives fetches nothing.  Untracking locates the
first occurrence of the callback by indexOf and splices it out, and
never fetches. -/
def SelectRest.step (st : SelectRestState) : TrackOp → SelectRestState
  | .track cb =>
    let st1 : SelectRestState := { st with callbacks := st.callbacks ++ [cb] }
    if st1.fetched then st1
    else { st1 with fetched := true, fetches := st1.fetches + 1 }
  | .untrack cb => { st with callbacks := st.callbacks.erase cb }

def SelectRest.runFrom (st : SelectRestState) (ops : List TrackOp) : SelectRestState :=
  ops.foldl SelectRest.step st

def SelectRest.run (ops : List TrackOp) : SelectRestState :=
  SelectRest.runFrom SelectRest.init ops

/-! ## Dynamic cross-field options (src/Parent.js generateState and
src/Shared.js SelectHash) -/

/-- The state of a SelectHash source: the hash from trigger value to
option pairs, and the current key. -/
structure SelectHashSt where
  hash : List (String × List (String × String))
  key : String
deriving Repr, DecidableEq

/-- JS property-key coercion for values used as SelectHash keys (the
trigger fields hold strings in practice; composite cases are inert
placeholders). -/
def jsKeyString : Val → String
  | .str s => s
  | .num n => toString n
  | .bool true => "true"
  | .bool false => "false"
  | .null => "null"
  | .undefined => "undefined"
  | .arr _ _ => ""
  | .obj _ _ => "object"

/-- The SelectHash constructor (src/Shared.js lines 250-263) at the
generateState call site: the initial key is the current value of the
trigger field defaulted through || to null, and a null key becomes the
empty string. -/
def SelectHash.initKey (value : List (String × Val)) (trigger : String) : String :=
  if jsFalsy (jsLookup value trigger) then "" else jsKeyString (jsLookup value trigger)

/-- The option list a SelectHash presents for its current key
(src/Shared.js lines 284 and 312): the hash entry of the key, or the
empty list. -/
def SelectHash.data (st : SelectHashSt) : List (String × String) :=
  match st.hash.lookup st.key with
  | some l => l
  | none => []

/-- SelectHash.key with an argument (src/Shared.js lines 275-291):
store the new key; subscribers are then notified with SelectHash.data
of the new state. -/
def SelectHash.keySet (st : SelectHashSt) (k : String) : SelectHashSt :=
  { st with key := k }

/-- One entry of the dynamicOptions prop. -/
structure DynBinding where
  node : String
  trigger : String
  options : List (String × List (String × String))
deriving Repr, DecidableEq

/-- The wiring generateState builds: one SelectHash per binding (in
binding order) and the per-trigger callback map oDynamicOptions. -/
structure DynWiring where
  sources : List SelectHashSt
  triggerMap : List (String × Nat)
deriving Repr, DecidableEq

/-- JS property write m[k] = v on the callback map: replace the binding
or append a new one. -/
def assocUpsertNat : List (String × Nat) → String → Nat → List (String × Nat)
  | [], k, v => [(k, v)]
  | (k0, v0) :: rest, k, v =>
    if k0 = k then (k0, v) :: rest else (k0, v0) :: assocUpsertNat rest k v

/-- The dynamicOptions loop of Parent.generateState (src/Parent.js
lines 106-141): each binding must name an existing node and an existing
trigger, else construction throws; otherwise the binding creates one
SelectHash keyed by the current trigger value and records its bound key
method under the trigger name, a later binding with the same trigger
overwriting the record of an earlier one. -/
def Parent.generateDynamicAux (ks : List String) (value : List (String × Val)) :
    List DynBinding → Nat → List SelectHashSt → List (String × Nat) →
    Except String DynWiring
  | [], _, srcs, tmap => .ok { sources := srcs, triggerMap := tmap }
  | b :: rest, i, srcs, tmap =>
    if ks.contains b.node = false then
      .error ("Node \"" ++ b.node ++
        "\" used as a node in \"dynamicOptions\" attribute does not exist in the Parent")
    else if ks.contains b.trigger = false then
      .error ("Node \"" ++ b.trigger ++
        "\" used as a trigger in \"dynamicOptions\" attribute does not exist in the Parent")
    else
      Parent.generateDynamicAux ks value rest (i + 1)
        (srcs ++ [{ hash := b.options, key := SelectHash.initKey value b.trigger }])
        (assocUpsertNat tmap b.trigger i)

def Parent.generateDynamic (ks : List String) (value : List (String × Val))
    (bindings : List DynBinding) : Except String DynWiring :=
  Parent.generateDynamicAux ks value bindings 0 [] []

/-- The sources the loop creates, one per binding in order. -/
def dynSources (value : List (String × Val)) (bindings : List DynBinding) :
    List SelectHashSt :=
  bindings.map fun b => { hash := b.options, key := SelectHash.initKey value b.trigger }

/-- The callback map the loop creates. -/
def dynTMap : List (String × Nat) → Nat → List DynBinding → List (String × Nat)
  | tmap, _, [] => tmap
  | tmap, i, b :: rest => dynTMap (assocUpsertNat tmap b.trigger i) (i + 1) rest

/-- The options currently available to the dependent field of binding
j: the current data of its source. -/
def DynWiring.optionsOf (w : DynWiring) (j : Nat) : List (String × String) :=
  match w.sources[j]? with
  | some st => SelectHash.data st
  | none => []

/-- A change of the trigger field t to value v: the onChange callback
wired in the Node branch of generateState (src/Parent.js lines 197-200)
is the key method of the source recorded for t, which re-keys that one
source; its subscribers then show the hash entry of the new key. -/
def DynWiring.triggerChange (w : DynWiring) (t : String) (v : Val) : DynWiring :=
  match w.triggerMap.lookup t with
  | none => w
  | some i =>
    match w.sources[i]? with
    | none => w
    | some st =>
      { w with sources := w.sources.set i (SelectHash.keySet st (jsKeyString v)) }


/-! ## JSON round trip (external JSON collaborators) -/

mutual

/-- Modelled from the contract of the external JSON collaborators
JSON.stringify and JSON.parse, which are not part of this repository: a
serialized fragment is represented by the value it parses back to, so
this function is the composition of parse after stringify.  An
undefined entry of an object is dropped, an undefined array element
becomes null, and composite values come back with fresh identity,
represented by the tag 0. -/
def jsonRoundVal : Val → Val
  | .undefined => .null
  | .null => .null
  | .bool b => .bool b
  | .num n => .num n
  | .str s => .str s
  | .arr _ es => .arr 0 (jsonRoundArr es)
  | .obj _ kvs => .obj 0 (jsonRoundObj kvs)

def jsonRoundArr : List Val → List Val
  | [] => []
  | v :: rest => jsonRoundVal v :: jsonRoundArr rest

def jsonRoundObj : List (String × Val) → List (String × Val)
  | [] => []
  | (k, v) :: rest =>
    match v with
    | .undefined => jsonRoundObj rest
    | w => (k, jsonRoundVal w) :: jsonRoundObj rest

end

mutual

/-- No undefined occurs anywhere inside the value.  Group widget values
satisfy this: child value getters only ever produce null for a missing
value, never undefined. -/
def undefFreeVal : Val → Bool
  | .undefined => false
  | .null => true
  | .bool _ => true
  | .num _ => true
  | .str _ => true
  | .arr _ es => undefFreeArr es
  | .obj _ kvs => undefFreeObj kvs

def undefFreeArr : List Val → Bool
  | [] => true
  | v :: rest => undefFreeVal v && undefFreeArr rest

def undefFreeObj : List (String × Val) → Bool
  | [] => true
  | (_, v) :: rest => undefFreeVal v && undefFreeObj rest

end

/-! ## Search controller (the Search component embedded in src/Node.js,
lines 1607-1749) -/

/-- The externally visible outcome of a query followed by the replay of
the stored fragment: what was written to the URL-hash slot, what was
pushed into the group widget, and the filter handed to the backend
read.  Serialized data is represented by its parsed content. -/
structure SearchEffects where
  hashWrite : Option Val
  parentSet : Option Val
  restFilter : Option Val
deriving Repr

/-- Search.query (src/Node.js lines 1658-1669): read the group value
and, when it is not empty, serialize it to JSON and store it in the
named hash slot; an empty value writes nothing. -/
def Search.query (v : List (String × Val)) : Option Val :=
  if jsEmpty (Val.obj 1 v) then none else some (jsonRoundVal (Val.obj 1 v))

/-- Search.search (src/Node.js lines 1671-1708): parse the fragment,
stop when the decoded value is empty, otherwise push the decoded value
into the group widget and issue the backend read with it as the
filter. -/
def Search.searchRun (frag : Val) : Option Val × Option Val :=
  if jsEmpty frag then (none, none) else (some frag, some frag)

/-- Search.query followed by the hash-subscription replay of the stored
fragment through Search.search (the subscription installed in
componentDidMount makes every hash write re-enter search). -/
def Search.queryThenReplay (v : List (String × Val)) : SearchEffects :=
  match Search.query v with
  | none => { hashWrite := none, parentSet := none, restFilter := none }
  | some frag =>
    { hashWrite := some frag,
      parentSet := (Search.searchRun frag).1,
      restFilter := (Search.searchRun frag).2 }

/-! ## Results table totals (the Results component of the repository,
calculateTotals and TotalsRow) -/

/-- A running total: a plain number for the numeric types, a Decimal
(arbitrary precision, modelled by the rationals) for decimal and
price. -/
inductive TotalVal where
  | numeric (n : Int)
  | dec (q : ℚ)
deriving Repr, DecidableEq

/-- The types summed as plain numbers in calculateTotals. -/
def numericTypes : List String :=
  ["int", "uint", "float", "time_elapsed", "time_average"]

/-- d[f] || 0 : the field value of a row, zero when absent. -/
def rowNum (d : List (String × Int)) (f : String) : Int :=
  match d.lookup f with
  | some n => n
  | none => 0

/-- Results.calculateTotals (lines 903-958 of the Results component):
with no rows the totals object stays empty; otherwise each field of a
numeric type starts at 0 (a Decimal zero for decimal and price), every
row adds its field value defaulted to 0, and a time_average total is
finally divided by the row count, truncated toward zero. -/
def Results.calculateTotals (fields : List String) (types : String → String)
    (data : List (List (String × Int))) : List (String × TotalVal) :=
  if data.length = 0 then []
  else
    (data.foldl
      (fun tot d => tot.map fun ft =>
        match ft.2 with
        | .numeric n => (ft.1, TotalVal.numeric (n + rowNum d ft.1))
        | .dec q => (ft.1, TotalVal.dec (q + (rowNum d ft.1 : ℚ))))
      (fields.filterMap fun f =>
        if numericTypes.contains (types f) then some (f, TotalVal.numeric 0)
        else if types f = "decimal" then some (f, TotalVal.dec 0)
        else if types f = "price" then some (f, TotalVal.dec 0)
        else none)).map fun ft =>
      if types ft.1 = "time_average" then
        match ft.2 with
        | .numeric n => (ft.1, TotalVal.numeric (Int.tdiv n data.length))
        | t => (ft.1, t)
      else ft

/-- What a totals-row cell displays. -/
inductive TotalsCell where
  | blank
  | num (n : Int)
  | dec (q : ℚ)
  | elapsedArg (v : Option Int)
deriving Repr, DecidableEq

/-- TotalsRow (lines 733-763 of the Results component): a time_elapsed
or time_average column hands its total to the external elapsed
formatter (the cell records the argument); any other column shows
totals[f] || Quote-Quote, which is blank when the total is missing or
is the number 0 (JS || treats 0 as falsy, while a Decimal total is an
object and therefore truthy even at zero). -/
def totalsRowCell (types : String → String) (totals : List (String × TotalVal))
    (f : String) : TotalsCell :=
  if ["time_elapsed", "time_average"].contains (types f) then
    .elapsedArg (match totals.lookup f with
      | some (.numeric n) => some n
      | some (.dec _) => none
      | none => none)
  else
    match totals.lookup f with
    | none => .blank
    | some (.numeric n) => if n = 0 then .blank else .num n
    | some (.dec q) => .dec q

/-! ## Helper lemmas -/

theorem lookup_isSome_iff_mem (l : List (String × Val)) (k : String) :
    (l.lookup k).isSome = true ↔ k ∈ l.map Prod.fst := by
  induction l with
  | nil => simp [List.lookup]
  | cons hd tl ih =>
    cases hd with
    | mk k0 v0 =>
      by_cases h : k = k0
      · subst h; simp [List.lookup]
      · have hb : (k == k0) = false := by simpa using h
        simp [List.lookup, hb, ih, h]

theorem assocSet_keys (l : List (String × Val)) (k : String) (v : Val) :
    (assocSet l k v).map Prod.fst = l.map Prod.fst := by
  induction l with
  | nil => simp [assocSet]
  | cons hd tl ih =>
    cases hd with
    | mk k0 v0 =>
      by_cases h : k0 = k
      · simp [assocSet, h]
      · simp [assocSet, h, ih]

theorem valueSet_ok_keys (v fields fs : List (String × Val))
    (h : Parent.valueSet fields v = .ok fs) :
    fs.map Prod.fst = fields.map Prod.fst := by
  induction v generalizing fields with
  | nil =>
    simp only [Parent.valueSet] at h
    cases h; rfl
  | cons hd tl ih =>
    cases hd with
    | mk k0 v0 =>
      simp only [Parent.valueSet] at h
      by_cases hk : (fields.lookup k0).isSome = true
      · rw [if_pos hk] at h
        rw [ih _ h, assocSet_keys]
      · rw [if_neg hk] at h
        cases h

theorem valueSet_ok_of_owned (v fields : List (String × Val))
    (h : ∀ k ∈ v.map Prod.fst, (fields.lookup k).isSome = true) :
    Parent.valueSet fields v = .ok (applyAssoc fields v) := by
  induction v generalizing fields with
  | nil => simp [Parent.valueSet, applyAssoc]
  | cons hd tl ih =>
    cases hd with
    | mk k0 v0 =>
      have hk : (fields.lookup k0).isSome = true := h k0 (by simp)
      simp only [Parent.valueSet, if_pos hk, applyAssoc, List.foldl_cons]
      exact ih (assocSet fields k0 v0) (fun k hkk => by
        rw [lookup_isSome_iff_mem, assocSet_keys, ← lookup_isSome_iff_mem]
        exact h k (by simp [hkk]))

theorem valueSet_error_of_missing (v fields : List (String × Val))
    (h : ∃ k ∈ v.map Prod.fst, (fields.lookup k).isSome = false) :
    isOkE (Parent.valueSet fields v) = false := by
  induction v generalizing fields with
  | nil => simp at h
  | cons hd tl ih =>
    cases hd with
    | mk k0 v0 =>
      obtain ⟨k, hkmem, hknone⟩ := h
      by_cases hk : (fields.lookup k0).isSome = true
      · simp only [Parent.valueSet, if_pos hk]
        apply ih
        rcases (by simpa using hkmem) with h0 | hmem
        · exact absurd hk (by rw [h0] at hknone; simp [hknone])
        · refine ⟨k, by simpa using hmem, ?_⟩
          rw [← Bool.not_eq_true, lookup_isSome_iff_mem, assocSet_keys,
            ← lookup_isSome_iff_mem, Bool.not_eq_true]
          exact hknone
      · simp only [Parent.valueSet, if_neg hk, isOkE]

theorem valueGet_nonupdate (ty : String) (ra : Bool)
    (propsValue l : List (String × Val)) (h : ty ≠ "update") :
    Parent.valueGet ty ra propsValue l = l.filter fun kv => !jsEmpty kv.2 := by
  unfold Parent.valueGet
  have hb : (ty == "update") = false := by simpa using h
  rw [hb]
  simp

/-- Claim C1: in create or search mode the Parent value getter never
includes a key whose resolved child value is empty; in update mode with
the returnAll flag unset it includes a key exactly when the current
child value differs, by strict (reference-level) inequality, from the
value supplied for that key at construction. -/
theorem parent_value_get_mode_filter
    (propsValue fields : List (String × Val)) (ra : Bool) :
    (∀ ty, ty = "create" ∨ ty = "search" →
      ∀ k v, (k, v) ∈ Parent.valueGet ty ra propsValue fields →
        jsEmpty v = false)
    ∧ (∀ k v, (k, v) ∈ Parent.valueGet "update" false propsValue fields ↔
        (k, v) ∈ fields ∧ jsEq (jsLookup propsValue k) v = false) := by
  constructor
  · rintro ty (rfl | rfl) k v hmem <;>
    · rw [valueGet_nonupdate _ _ _ _ (by decide), List.mem_filter] at hmem
      simpa using hmem.2
  · intro k v
    unfold Parent.valueGet
    rw [List.mem_filter]
    simp

theorem parent_value_get_mode_filter_witness :
    jsEmpty (Val.num 2) = false ∧
    ("a", Val.num 2) ∈ Parent.valueGet "update" false
      [("a", Val.num 1)] [("a", Val.num 2), ("b", Val.str "")] :=
  ⟨(parent_value_get_mode_filter [("a", Val.num 1)]
      [("a", Val.num 2), ("b", Val.str "")] false).1
      "create" (Or.inl rfl) "a" (Val.num 2) (List.Mem.head _),
   ((parent_value_get_mode_filter [("a", Val.num 1)]
      [("a", Val.num 2), ("b", Val.str "")] false).2
      "a" (Val.num 2)).mpr ⟨List.Mem.head _, rfl⟩⟩

/-- Claim C2 counterexample: assigning a value whose key names no
current child does not complete silently; the setter hits a property
write on undefined and throws a TypeError.  The widget owns only the
child a, the assigned mapping only the key b. -/
theorem parent_set_unknown_key_throws :
    isOkE (Parent.valueSet [("a", Val.num 5)] [("b", Val.num 1)]) = false ∧
    Parent.valueSet [("a", Val.num 5)] [("b", Val.num 1)] =
      .error "TypeError: cannot set value of undefined (no child b)" :=
  ⟨rfl, rfl⟩

/-- Claim C2 (amended): the assignment succeeds exactly when every key
of the assigned mapping names a current child, and it never creates a
new member (an unknown key throws a TypeError instead of being
ignored); after a successful assignment, reading the value back in
create or search mode yields the current children filtered to
non-empty resolved values, with assigned keys holding their assigned
values. -/
theorem parent_value_roundtrip_amended
    (propsValue fields v : List (String × Val)) (ra : Bool) :
    ((∀ k ∈ v.map Prod.fst, (fields.lookup k).isSome = true) →
      Parent.valueSet fields v = .ok (applyAssoc fields v))
    ∧ (∀ fs, Parent.valueSet fields v = .ok fs →
        fs.map Prod.fst = fields.map Prod.fst)
    ∧ ((∃ k ∈ v.map Prod.fst, (fields.lookup k).isSome = false) →
      isOkE (Parent.valueSet fields v) = false)
    ∧ (∀ ty, ty = "create" ∨ ty = "search" →
      (∀ k ∈ v.map Prod.fst, (fields.lookup k).isSome = true) →
      Parent.readAfterSet ty ra propsValue fields v =
        .ok ((resolveFields (applyAssoc fields v)).filter
          fun kv => !jsEmpty kv.2)) := by
  refine ⟨valueSet_ok_of_owned v fields,
    fun fs h => valueSet_ok_keys v fields fs h,
    valueSet_error_of_missing v fields, ?_⟩
  rintro ty (rfl | rfl) h <;>
  · unfold Parent.readAfterSet
    rw [valueSet_ok_of_owned v fields h]
    exact congrArg Except.ok (valueGet_nonupdate _ ra propsValue _ (by decide))

theorem parent_value_roundtrip_amended_witness :
    Parent.readAfterSet "create" false []
      [("a", Val.str "x"), ("b", Val.str "y")] [("a", Val.null)] =
    .ok ((resolveFields (applyAssoc [("a", Val.str "x"), ("b", Val.str "y")]
      [("a", Val.null)])).filter fun kv => !jsEmpty kv.2) :=
  (parent_value_roundtrip_amended [] [("a", Val.str "x"), ("b", Val.str "y")]
    [("a", Val.null)] false).2.2.2 "create" (Or.inl rfl)
    (by intro k hk; simp at hk; subst hk; rfl)

/-- Claim C10: the NodeBase and NodeTextArea value getters turn a stored
empty string into null, and a null resolved value is never included by
the Parent value getter in create mode, so a cleared input is treated
as empty by the group aggregation. -/
theorem node_empty_string_reads_null :
    NodeBase.valueGet (Val.str "") = Val.null
    ∧ NodeTextArea.valueGet (Val.str "") = Val.null
    ∧ jsEmpty (NodeBase.valueGet (Val.str "")) = true
    ∧ ∀ (propsValue fields : List (String × Val)) (ra : Bool) (k : String),
        (k, Val.null) ∉ Parent.valueGet "create" ra propsValue fields := by
  refine ⟨rfl, rfl, rfl, ?_⟩
  intro pv fields ra k hmem
  rw [valueGet_nonupdate _ _ _ _ (by decide), List.mem_filter] at hmem
  simpa [jsEmpty] using hmem.2

theorem node_empty_string_reads_null_witness :
    ("x", Val.null) ∉ Parent.valueGet "create" false [] [("x", Val.null)] :=
  node_empty_string_reads_null.2.2.2 [] [("x", Val.null)] false "x"

/-- Claim C3: with no type override and no enumerated options the fixed
lookup table resolves each mapped primitive to exactly one widget kind,
and an unmapped primitive throws at construction; but rendering the
resolved kind fails for the date primitive, because src/Node.js line
474 registers the NodeDate widget under the misspelled key data, so
render throws on the kind date while the orphan key data stays
registered. -/
theorem node_type_resolution_date_typo :
    (["any", "base64", "ip", "json", "md5", "string", "uuid", "uuid4"].map
      (Node.defaultType false) = List.replicate 8 (Except.ok "text"))
    ∧ (["decimal", "float", "int", "timestamp", "uint"].map
      (Node.defaultType false) = List.replicate 5 (Except.ok "number"))
    ∧ (["bool", "datetime", "price", "time"].map (Node.defaultType false) =
        [Except.ok "bool", Except.ok "datetime", Except.ok "price",
         Except.ok "time"])
    ∧ (["text", "number", "bool", "datetime", "price", "time"].map
      Node.renderResolve =
        [Except.ok "text", Except.ok "number", Except.ok "bool",
         Except.ok "datetime", Except.ok "price", Except.ok "time"])
    ∧ Node.defaultType false "date" = Except.ok "date"
    ∧ Node.renderResolve "date" = Except.error "invalid type in format/Node: date"
    ∧ Node.renderResolve "data" = Except.ok "data"
    ∧ Node.defaultType false "tuple" =
        Except.error "invalid type in format/Node: tuple"
    ∧ Node.defaultType true "int" = Except.ok "select" :=
  ⟨rfl, rfl, rfl, rfl, rfl, rfl, rfl, rfl, rfl⟩

/-- Claim C5: on the generic element management, add() appends one
element, but remove with the synthetic key of the new element does not
restore the prior list: src/Array.js line 98 calls splice on
this.nodes, a plain object, so remove throws a TypeError whenever the
key is found and the element list is never restored. -/
theorem array_add_remove_throws :
    (ArrayNode.construct []).elements = []
    ∧ (ArrayNode.add (ArrayNode.construct [])).elements =
        [{ value := Val.null, key := 0 }]
    ∧ ArrayNode.remove (ArrayNode.add (ArrayNode.construct [])) 0 =
        .error "TypeError: this.nodes.splice is not a function" :=
  ⟨rfl, rfl, rfl⟩

/-- Claim C4: in create and in update mode, when the group widget
valid() call returns false the submission stops after triggering the
generic error event and distributing the validation failures onto the
group widget; no backend create or update call is issued. -/
theorem form_submit_fail_closed
    (service noun : String) (failures : List (String × String))
    (parentVal : List (String × Val))
    (sendPrimary : Bool) (primary : String) (key : Val)
    (beforeSubmit : Option (List (String × Val) → Option (List (String × Val))))
    (hasOverride : Bool) :
    Form.createRun service noun false failures parentVal beforeSubmit hasOverride =
      [.eventError "Please fix invalid data", .parentError failures]
    ∧ Form.updateRun service noun false failures parentVal sendPrimary primary key
        beforeSubmit hasOverride =
      [.eventError "Please fix invalid data", .parentError failures]
    ∧ (∀ e ∈ Form.createRun service noun false failures parentVal beforeSubmit
        hasOverride, e.isBackendCall = false)
    ∧ (∀ e ∈ Form.updateRun service noun false failures parentVal sendPrimary
        primary key beforeSubmit hasOverride, e.isBackendCall = false)
    ∧ FormEffect.parentError failures ∈
        Form.createRun service noun false failures parentVal beforeSubmit hasOverride
    ∧ FormEffect.parentError failures ∈
        Form.updateRun service noun false failures parentVal sendPrimary primary key
          beforeSubmit hasOverride := by
  refine ⟨rfl, rfl, ?_, ?_, ?_, ?_⟩
  · intro e he
    simp only [Form.createRun, Bool.not_false, if_pos, List.mem_cons,
      List.not_mem_nil, or_false] at he
    rcases he with rfl | rfl <;> rfl
  · intro e he
    simp only [Form.updateRun, Bool.not_false, if_pos, List.mem_cons,
      List.not_mem_nil, or_false] at he
    rcases he with rfl | rfl <;> rfl
  · exact List.Mem.tail _ (List.Mem.head _)
  · exact List.Mem.tail _ (List.Mem.head _)

theorem form_submit_fail_closed_witness :
    FormEffect.parentError [("name", "missing")] ∈
      Form.createRun "svc" "rec" false [("name", "missing")] [] none false
    ∧ FormEffect.isBackendCall
        (FormEffect.eventError "Please fix invalid data") = false :=
  ⟨(form_submit_fail_closed "svc" "rec" [("name", "missing")] [] false "_id"
      Val.null none false).2.2.2.2.1,
   (form_submit_fail_closed "svc" "rec" [("name", "missing")] [] false "_id"
      Val.null none false).2.2.1
      (FormEffect.eventError "Please fix invalid data") (List.Mem.head _)⟩

theorem runFrom_fetched (ops : List TrackOp) (st : SelectRestState) :
    (SelectRest.runFrom st ops).fetched =
      (st.fetched || ops.any TrackOp.isTrack) := by
  induction ops generalizing st with
  | nil => simp [SelectRest.runFrom]
  | cons op rest ih =>
    cases op with
    | track cb =>
      simp only [SelectRest.runFrom, List.foldl_cons] at *
      rw [ih]
      by_cases hf : st.fetched = true
      · simp [SelectRest.step, hf, TrackOp.isTrack]
      · simp only [Bool.not_eq_true] at hf
        simp [SelectRest.step, hf, TrackOp.isTrack]
    | untrack cb =>
      simp only [SelectRest.runFrom, List.foldl_cons] at *
      rw [ih]
      simp [SelectRest.step, TrackOp.isTrack]

theorem runFrom_fetches_inv (ops : List TrackOp) (st : SelectRestState)
    (h : st.fetches = if st.fetched then 1 else 0) :
    (SelectRest.runFrom st ops).fetches =
      if (SelectRest.runFrom st ops).fetched then 1 else 0 := by
  induction ops generalizing st with
  | nil => simpa [SelectRest.runFrom] using h
  | cons op rest ih =>
    cases op with
    | track cb =>
      simp only [SelectRest.runFrom, List.foldl_cons] at *
      apply ih
      by_cases hf : st.fetched = true
      · simp [SelectRest.step, hf, h, hf ▸ h]
      · simp only [Bool.not_eq_true] at hf
        simp [SelectRest.step, hf, h]
    | untrack cb =>
      simp only [SelectRest.runFrom, List.foldl_cons] at *
      apply ih
      simpa [SelectRest.step] using h

theorem exists_track_iff_any (ops : List TrackOp) :
    (∃ cb, TrackOp.track cb ∈ ops) ↔ ops.any TrackOp.isTrack = true := by
  rw [List.any_eq_true]
  constructor
  · rintro ⟨cb, hmem⟩
    exact ⟨TrackOp.track cb, hmem, rfl⟩
  · rintro ⟨op, hmem, hT⟩
    cases op with
    | track cb => exact ⟨cb, hmem⟩
    | untrack cb => cases hT

/-- Claim C7: across any sequence of track and untrack calls a
SelectRest instance issues at most one backend fetch, and it issues
exactly one precisely when some track call occurred (so the first
track fetches once and a second track before the response fetches
nothing, the flag being up already); untracking removes exactly the
first occurrence of that one callback, so every other registered
callback keeps receiving notifications. -/
theorem select_rest_single_fetch_untrack :
    (∀ ops : List TrackOp, (SelectRest.run ops).fetches ≤ 1)
    ∧ (∀ ops : List TrackOp,
        ((SelectRest.run ops).fetches = 1 ↔ ∃ cb, TrackOp.track cb ∈ ops))
    ∧ (∀ cb, (SelectRest.step SelectRest.init (.track cb)).fetches = 1)
    ∧ (∀ st cb, st.fetched = true →
        SelectRest.step st (.track cb) =
          { st with callbacks := st.callbacks ++ [cb] })
    ∧ (∀ st cb,
        (SelectRest.step st (.untrack cb)).callbacks = st.callbacks.erase cb
        ∧ (SelectRest.step st (.untrack cb)).fetches = st.fetches
        ∧ (∀ c ∈ st.callbacks, c ≠ cb →
            c ∈ (SelectRest.step st (.untrack cb)).callbacks)
        ∧ (∀ c, c ≠ cb →
            (SelectRest.step st (.untrack cb)).callbacks.count c =
              st.callbacks.count c)) := by
  have hrun : ∀ ops : List TrackOp,
      (SelectRest.run ops).fetches =
        if (SelectRest.run ops).fetched then 1 else 0 := by
    intro ops
    exact runFrom_fetches_inv ops SelectRest.init rfl
  refine ⟨?_, ?_, ?_, ?_, ?_⟩
  · intro ops
    rw [hrun ops]
    split <;> simp
  · intro ops
    rw [hrun ops, exists_track_iff_any, SelectRest.run, runFrom_fetched]
    simp [SelectRest.init]
  · intro cb
    rfl
  · intro st cb h
    simp [SelectRest.step, h]
  · intro st cb
    refine ⟨rfl, rfl, ?_, ?_⟩
    · intro c hc hne
      simp only [SelectRest.step]
      exact (List.mem_erase_of_ne hne).mpr hc
    · intro c hne
      simp only [SelectRest.step]
      exact List.count_erase_of_ne hne st.callbacks

theorem select_rest_single_fetch_untrack_witness :
    (SelectRest.run [TrackOp.track 1, TrackOp.track 2, TrackOp.untrack 1]).fetches = 1
    ∧ 2 ∈ (SelectRest.step { callbacks := [1, 2], fetched := true, fetches := 1 }
        (TrackOp.untrack 1)).callbacks :=
  ⟨(select_rest_single_fetch_untrack.2.1
      [TrackOp.track 1, TrackOp.track 2, TrackOp.untrack 1]).mpr
      ⟨1, List.Mem.head _⟩,
   (select_rest_single_fetch_untrack.2.2.2.2
      { callbacks := [1, 2], fetched := true, fetches := 1 } 1).2.2.1
      2 (List.Mem.tail _ (List.Mem.head _)) (by decide)⟩

theorem lookup_assocUpsertNat (m : List (String × Nat)) (k : String) (v : Nat)
    (t : String) :
    (assocUpsertNat m k v).lookup t = if t = k then some v else m.lookup t := by
  induction m with
  | nil =>
    by_cases h : t = k
    · simp [assocUpsertNat, List.lookup, h]
    · have hb : (t == k) = false := by simpa using h
      simp [assocUpsertNat, List.lookup, hb, h]
  | cons hd rest ih =>
    obtain ⟨k0, v0⟩ := hd
    by_cases hk : k0 = k
    · subst hk
      by_cases h : t = k0
      · subst h
        simp [assocUpsertNat, List.lookup]
      · have hb : (t == k0) = false := by simpa using h
        simp [assocUpsertNat, List.lookup, hb, h]
    · by_cases h : t = k0
      · subst h
        simp [assocUpsertNat, hk, List.lookup]
      · have hb : (t == k0) = false := by simpa using h
        simp [assocUpsertNat, hk, List.lookup, hb, h, ih]

theorem dynTMap_lookup_of_not_mem (bs : List DynBinding)
    (tmap : List (String × Nat)) (i : Nat) (t : String)
    (h : ∀ b ∈ bs, b.trigger ≠ t) :
    (dynTMap tmap i bs).lookup t = tmap.lookup t := by
  induction bs generalizing tmap i with
  | nil => rfl
  | cons b rest ih =>
    simp only [dynTMap]
    rw [ih _ _ (fun b' hb' => h b' (List.mem_cons_of_mem _ hb')),
      lookup_assocUpsertNat,
      if_neg (fun hh => h b (List.mem_cons_self _ _) hh.symm)]

theorem dynTMap_lookup_some (bs : List DynBinding)
    (tmap : List (String × Nat)) (i j : Nat) (t : String)
    (h : (dynTMap tmap i bs).lookup t = some j) :
    (tmap.lookup t = some j ∧ ∀ b ∈ bs, b.trigger ≠ t) ∨
    (∃ p b, bs[p]? = some b ∧ b.trigger = t ∧ j = i + p) := by
  induction bs generalizing tmap i with
  | nil =>
    left
    exact ⟨h, by simp⟩
  | cons b rest ih =>
    simp only [dynTMap] at h
    rcases ih _ _ h with ⟨hl, hall⟩ | ⟨p, b', hget, htrig, hj⟩
    · rw [lookup_assocUpsertNat] at hl
      by_cases ht : t = b.trigger
      · rw [if_pos ht] at hl
        right
        refine ⟨0, b, by simp, ht.symm, ?_⟩
        injection hl with hl
        omega
      · rw [if_neg ht] at hl
        left
        refine ⟨hl, ?_⟩
        intro b' hb'
        rcases List.mem_cons.mp hb' with rfl | hmem
        · exact fun hh => ht hh.symm
        · exact hall b' hmem
    · right
      refine ⟨p + 1, b', by simpa using hget, htrig, by omega⟩

theorem dynTMap_lookup_of_nodup (bs : List DynBinding)
    (hnd : (bs.map DynBinding.trigger).Nodup) :
    ∀ (tmap : List (String × Nat)) (i p : Nat) (b : DynBinding),
      bs[p]? = some b → (dynTMap tmap i bs).lookup b.trigger = some (i + p) := by
  induction bs with
  | nil =>
    intro tmap i p b h
    simp at h
  | cons b0 rest ih =>
    intro tmap i p b h
    cases p with
    | zero =>
      simp only [List.getElem?_cons_zero, Option.some.injEq] at h
      subst h
      have hno : ∀ b' ∈ rest, b'.trigger ≠ b0.trigger := by
        intro b' hb' heq
        have hmem : b'.trigger ∈ rest.map DynBinding.trigger :=
          List.mem_map_of_mem _ hb'
        rw [heq] at hmem
        exact (List.nodup_cons.mp hnd).1 hmem
      simp only [dynTMap]
      rw [dynTMap_lookup_of_not_mem rest _ _ _ hno, lookup_assocUpsertNat,
        if_pos rfl]
      simp
    | succ p =>
      simp only [List.getElem?_cons_succ] at h
      simp only [dynTMap]
      rw [ih (List.nodup_cons.mp hnd).2 _ (i + 1) p b h]
      congr 1
      omega

theorem generateDynamicAux_ok (ks : List String) (value : List (String × Val))
    (bs : List DynBinding) (i : Nat) (srcs : List SelectHashSt)
    (tmap : List (String × Nat))
    (h : ∀ b ∈ bs, ks.contains b.node = true ∧ ks.contains b.trigger = true) :
    Parent.generateDynamicAux ks value bs i srcs tmap =
      .ok { sources := srcs ++ dynSources value bs,
            triggerMap := dynTMap tmap i bs } := by
  induction bs generalizing i srcs tmap with
  | nil => simp [Parent.generateDynamicAux, dynSources, dynTMap]
  | cons b rest ih =>
    have hb := h b (List.mem_cons_self _ _)
    simp only [Parent.generateDynamicAux]
    rw [if_neg (by rw [hb.1]; simp), if_neg (by rw [hb.2]; simp),
      ih _ _ _ (fun b' hb' => h b' (List.mem_cons_of_mem _ hb'))]
    simp [dynSources, dynTMap, List.map_cons, List.append_assoc]

theorem generateDynamicAux_error (ks : List String) (value : List (String × Val))
    (bs : List DynBinding) (i : Nat) (srcs : List SelectHashSt)
    (tmap : List (String × Nat))
    (h : ∃ b ∈ bs, ks.contains b.node = false ∨ ks.contains b.trigger = false) :
    isOkE (Parent.generateDynamicAux ks value bs i srcs tmap) = false := by
  induction bs generalizing i srcs tmap with
  | nil => simp at h
  | cons b rest ih =>
    simp only [Parent.generateDynamicAux]
    by_cases h1 : ks.contains b.node = false
    · rw [if_pos h1]; rfl
    · rw [if_neg h1]
      by_cases h2 : ks.contains b.trigger = false
      · rw [if_pos h2]; rfl
      · rw [if_neg h2]
        apply ih
        obtain ⟨b', hb', hor⟩ := h
        rcases List.mem_cons.mp hb' with rfl | hmem
        · rcases hor with hh | hh
          · exact absurd hh h1
          · exact absurd hh h2
        · exact ⟨b', hmem, hor⟩

/-- Claim C8 counterexample: two well-formed bindings that share the
trigger t.  Construction succeeds and creates one source per binding,
but the callback map keys on the trigger name, so the second binding
overwrites the record of the first: after a change of t the dependent
field of the second binding shows its hash entry for the new key while
the dependent field of the first binding still shows the data of the
initial key, not its hash entry for the new key, refuting the claim
that every binding is wired. -/
theorem dynamic_options_duplicate_trigger_unwired :
    Parent.generateDynamic ["a", "b", "t"] []
      [{ node := "a", trigger := "t", options := [("k", [("1", "one")])] },
       { node := "b", trigger := "t", options := [("k", [("2", "two")])] }] =
      .ok { sources := [{ hash := [("k", [("1", "one")])], key := "" },
                        { hash := [("k", [("2", "two")])], key := "" }],
            triggerMap := [("t", 1)] }
    ∧ (DynWiring.triggerChange
        { sources := [{ hash := [("k", [("1", "one")])], key := "" },
                      { hash := [("k", [("2", "two")])], key := "" }],
          triggerMap := [("t", 1)] } "t" (Val.str "k")).optionsOf 1 =
      [("2", "two")]
    ∧ (DynWiring.triggerChange
        { sources := [{ hash := [("k", [("1", "one")])], key := "" },
                      { hash := [("k", [("2", "two")])], key := "" }],
          triggerMap := [("t", 1)] } "t" (Val.str "k")).optionsOf 0 = []
    ∧ (DynWiring.triggerChange
        { sources := [{ hash := [("k", [("1", "one")])], key := "" },
                      { hash := [("k", [("2", "two")])], key := "" }],
          triggerMap := [("t", 1)] } "t" (Val.str "k")).optionsOf 0 ≠
      SelectHash.data { hash := [("k", [("1", "one")])],
                        key := jsKeyString (Val.str "k") } :=
  ⟨rfl, rfl, rfl, by decide⟩

/-- Claim C8 (amended): construction throws exactly when some binding
names a node or trigger missing from the group, with the matching
message; otherwise one hash-keyed option source is created per binding,
and for each trigger name the callback map records a single binding
with that trigger — a change of the trigger re-keys that one source, so
its dependent field shows the hash entry of the new value; when the
bindings carry pairwise distinct triggers the recorded binding is each
binding itself, wiring every dependent field as the original claim
states, but a binding whose trigger recurs in a later binding is left
unwired. -/
theorem dynamic_options_amended
    (ks : List String) (value : List (String × Val))
    (bindings : List DynBinding) :
    ((∀ b ∈ bindings, ks.contains b.node = true ∧ ks.contains b.trigger = true) →
      Parent.generateDynamic ks value bindings =
        .ok { sources := dynSources value bindings,
              triggerMap := dynTMap [] 0 bindings }
      ∧ (dynSources value bindings).length = bindings.length
      ∧ (∀ t i, (dynTMap [] 0 bindings).lookup t = some i →
          ∃ b, bindings[i]? = some b ∧ b.trigger = t ∧
            ∀ v, (DynWiring.triggerChange
                { sources := dynSources value bindings,
                  triggerMap := dynTMap [] 0 bindings } t v).optionsOf i =
              SelectHash.data { hash := b.options, key := jsKeyString v })
      ∧ ((bindings.map DynBinding.trigger).Nodup →
          ∀ p b, bindings[p]? = some b →
            (dynTMap [] 0 bindings).lookup b.trigger = some p))
    ∧ ((∃ b ∈ bindings,
        ks.contains b.node = false ∨ ks.contains b.trigger = false) →
      isOkE (Parent.generateDynamic ks value bindings) = false) := by
  constructor
  · intro h
    refine ⟨?_, by simp [dynSources], ?_, ?_⟩
    · rw [Parent.generateDynamic,
        generateDynamicAux_ok ks value bindings 0 [] [] h]
      simp
    · intro t i hlook
      rcases dynTMap_lookup_some bindings [] 0 i t hlook with
        ⟨hl, _⟩ | ⟨p, b, hget, htrig, hj⟩
      · simp [List.lookup] at hl
      · have hip : i = p := by omega
        subst hip
        refine ⟨b, hget, htrig, ?_⟩
        intro v
        have hsrc : (dynSources value bindings)[i]? =
            some { hash := b.options,
                   key := SelectHash.initKey value b.trigger } := by
          rw [dynSources, List.getElem?_map, hget]
          rfl
        have hlen : i < (dynSources value bindings).length :=
          (List.getElem?_eq_some.mp hsrc).1
        unfold DynWiring.triggerChange
        simp only [hlook, hsrc]
        unfold DynWiring.optionsOf
        simp only [List.getElem?_set_self hlen]
        rfl
    · intro hnd p b hget
      have := dynTMap_lookup_of_nodup bindings hnd [] 0 p b hget
      simpa using this
  · intro h
    exact generateDynamicAux_error ks value bindings 0 [] [] h

theorem dynamic_options_amended_witness :
    Parent.generateDynamic ["a", "t"] [("t", Val.str "on")]
      [{ node := "a", trigger := "t", options := [("on", [("1", "one")])] }] =
      .ok { sources := dynSources [("t", Val.str "on")]
              [{ node := "a", trigger := "t",
                 options := [("on", [("1", "one")])] }],
            triggerMap := dynTMap [] 0
              [{ node := "a", trigger := "t",
                 options := [("on", [("1", "one")])] }] }
    ∧ isOkE (Parent.generateDynamic ["a"] []
        [{ node := "a", trigger := "t", options := [] }]) = false :=
  ⟨((dynamic_options_amended ["a", "t"] [("t", Val.str "on")]
      [{ node := "a", trigger := "t", options := [("on", [("1", "one")])] }]).1
      (by intro b hb; simp at hb; subst hb; exact ⟨rfl, rfl⟩)).1,
   (dynamic_options_amended ["a"] []
      [{ node := "a", trigger := "t", options := [] }]).2
      ⟨{ node := "a", trigger := "t", options := [] },
        List.Mem.head _, Or.inr rfl⟩⟩

theorem jsonRoundObj_keys (kvs : List (String × Val))
    (h : undefFreeObj kvs = true) :
    (jsonRoundObj kvs).map Prod.fst = kvs.map Prod.fst := by
  induction kvs with
  | nil => rfl
  | cons kv rest ih =>
    obtain ⟨k, v⟩ := kv
    simp only [undefFreeObj, Bool.and_eq_true] at h
    cases v with
    | undefined => simp [undefFreeVal] at h
    | null => simp [jsonRoundObj, ih h.2]
    | bool b => simp [jsonRoundObj, ih h.2]
    | num n => simp [jsonRoundObj, ih h.2]
    | str s => simp [jsonRoundObj, ih h.2]
    | arr i es => simp [jsonRoundObj, ih h.2]
    | obj i es => simp [jsonRoundObj, ih h.2]

/-- Claim C6: for a non-empty group value, free of undefined entries as
group values are, query writes the serialized value into the hash slot,
and the replay of the stored fragment through search pushes the decoded
value into the group widget and passes exactly that value — the group
value up to JSON round-tripping — as the filter of the backend read. -/
theorem search_query_replay_filter (v : List (String × Val))
    (hne : v ≠ []) (hu : undefFreeObj v = true) :
    (Search.queryThenReplay v).hashWrite = some (jsonRoundVal (Val.obj 1 v))
    ∧ (Search.queryThenReplay v).restFilter = some (jsonRoundVal (Val.obj 1 v))
    ∧ (Search.queryThenReplay v).parentSet =
        (Search.queryThenReplay v).restFilter := by
  have hq : Search.query v = some (jsonRoundVal (Val.obj 1 v)) := by
    unfold Search.query
    rw [if_neg ?hc]
    case hc =>
      simp only [jsEmpty, List.isEmpty_iff]
      simpa using hne
  have hkeys := jsonRoundObj_keys v hu
  have hnz : jsonRoundObj v ≠ [] := by
    intro hz
    rw [hz] at hkeys
    cases v with
    | nil => exact hne rfl
    | cons a l => simp at hkeys
  have hfrag : jsEmpty (jsonRoundVal (Val.obj 1 v)) = false := by
    simp only [jsonRoundVal, jsEmpty]
    simpa [List.isEmpty_iff] using hnz
  unfold Search.queryThenReplay
  rw [hq]
  simp [Search.searchRun, hfrag]

theorem search_query_replay_filter_witness :
    (Search.queryThenReplay [("name", Val.str "bob")]).restFilter =
      some (jsonRoundVal (Val.obj 1 [("name", Val.str "bob")])) :=
  (search_query_replay_filter [("name", Val.str "bob")] (by simp) rfl).2.1

/-- Claim C9: with rows x = 1, 2, 3 and the column x of the numeric
type int, the totals row shows 6 for that column; with zero rows the
totals object is empty and the totals row shows blank for every column
whose type is not handed to the external elapsed formatter (the
claimed scenario types every column numerically). -/
theorem results_totals_sum_and_blank :
    totalsRowCell (fun _ => "int")
      (Results.calculateTotals ["x"] (fun _ => "int")
        [[("x", 1)], [("x", 2)], [("x", 3)]]) "x" = TotalsCell.num 6
    ∧ ∀ (fields : List String) (types : String → String) (f : String),
        (["time_elapsed", "time_average"].contains (types f)) = false →
        totalsRowCell types (Results.calculateTotals fields types []) f =
          TotalsCell.blank := by
  constructor
  · rfl
  · intro fields types f h
    have hempty : Results.calculateTotals fields types [] = [] := by
      simp [Results.calculateTotals]
    unfold totalsRowCell
    rw [hempty, if_neg (by rw [h]; simp)]
    rfl

theorem results_totals_sum_and_blank_witness :
    totalsRowCell (fun _ => "int")
      (Results.calculateTotals ["x"] (fun _ => "int") []) "x" =
      TotalsCell.blank :=
  results_totals_sum_and_blank.2 ["x"] (fun _ => "int") "x" rfl
